import Mathlib

/-!
Verification of the sandbox mutation / feasibility core of `chat_assistant.py`
(route-buncher).  The two tool executors `execute_modify_sandbox_order` and
`execute_check_feasibility` are shallowly embedded below: Python dicts become
association lists in insertion order, Python ints become `Int`, fallible
list/dict indexing is threaded through `Option`, and the uncaught `KeyError`
on the confirmation-verb lookup is an explicit `raised` outcome.
-/

set_option autoImplicit false

namespace RouteBuncher

/-- ASCII lower-casing of a character, as Python `str.lower` acts on the
ASCII category/status strings used by the program. -/
def charLower (c : Char) : Char :=
  if 65 ≤ c.toNat ∧ c.toNat ≤ 90 then Char.ofNat (c.toNat + 32) else c

/-- ASCII upper-casing of a character, as Python `str.upper` acts on the
ASCII category/status strings used by the program. -/
def charUpper (c : Char) : Char :=
  if 97 ≤ c.toNat ∧ c.toNat ≤ 122 then Char.ofNat (c.toNat - 32) else c

/-- Python `s.lower()` on the ASCII strings this program manipulates. -/
def pyLower (s : String) : String := ⟨s.data.map charLower⟩

/-- Python `s.upper()` on the ASCII strings this program manipulates. -/
def pyUpper (s : String) : String := ⟨s.data.map charUpper⟩

/-- A catalog entry of `valid_orders`: the fields the sandbox core reads.
Only the identifier is consulted (`catalogNode` maps id to 1-based position);
`units` is carried along as reference data. -/
structure Order where
  order_id : String
  units : Int
  deriving Repr, DecidableEq

/-- A sandbox order record.  The Python code uses a loose dict; the fields
`node`, `sequence_index` and `estimated_arrival` may be absent (popped when an
order leaves KEEP), which is modelled with `Option`. -/
structure SandboxOrder where
  order_id : String
  units : Int
  reason : String
  category : String
  node : Option Nat := none
  sequence_index : Option Int := none
  estimated_arrival : Option Int := none
  deriving Repr, DecidableEq

/-- One category's ordered sequence of sandbox orders. -/
abbrev Bucket := List SandboxOrder

/-- `sandbox_data`: a Python dict from category key to bucket, modelled as an
association list in insertion order (first binding of a key wins, as in a
dict with unique keys). -/
abbrev Sandbox := List (String × Bucket)

def kKeep : String := "keep"

def kEarly : String := "early"

def kReschedule : String := "reschedule"

def kCancel : String := "cancel"

def sKEEP : String := "KEEP"

def sEARLY : String := "EARLY"

def sRESCHEDULE : String := "RESCHEDULE"

def sCANCEL : String := "CANCEL"

/-- Python `sandbox_data[key]` lookup (first binding of the key). -/
def dictGet? : Sandbox → String → Option Bucket
  | [], _ => none
  | (k, v) :: rest, key => if k == key then some v else dictGet? rest key

/-- Python `sandbox_data.get(key, [])`. -/
def dictGetD (s : Sandbox) (key : String) : Bucket := (dictGet? s key).getD []

/-- Python `sandbox_data[key] = v`: replace the first binding of the key in
place, or append a new binding at the end (dict insertion order). -/
def dictSet : Sandbox → String → Bucket → Sandbox
  | [], key, v => [(key, v)]
  | (k, w) :: rest, key, v =>
      if k == key then (k, v) :: rest else (k, w) :: dictSet rest key v

/-- First order of the bucket whose id matches, as the Python scan
`for order in ...: if str(order['order_id']) == str(order_id)`. -/
def bucketFind? (l : Bucket) (order_id : String) : Option SandboxOrder :=
  l.find? (fun o => o.order_id == order_id)

/-- Python `sum(o['units'] for o in ...)`. -/
def sumUnits (l : Bucket) : Int := l.foldl (fun acc o => acc + o.units) 0

/-- The scan of `execute_modify_sandbox_order` over a list of status keys,
returning the first matching order together with the key of the bucket it was
found in. -/
def findOrderIn : List String → Sandbox → String → Option (SandboxOrder × String)
  | [], _, _ => none
  | st :: rest, s, oid =>
      match bucketFind? (dictGetD s st) oid with
      | some o => some (o, st)
      | none => findOrderIn rest s oid

/-- The fixed scan order `['keep', 'early', 'reschedule', 'cancel']`. -/
def scanStatuses : List String := [kKeep, kEarly, kReschedule, kCancel]

/-- Lines 469-480: locate an order in the four buckets, first match wins. -/
def findOrder (s : Sandbox) (oid : String) : Option (SandboxOrder × String) :=
  findOrderIn scanStatuses s oid

/-- Lines 509-514 / 609-613: `for idx, vo in enumerate(valid_orders): if id
matches: node = idx + 1` (node 0 is the depot). -/
def catalogNodeAux (order_id : String) : Nat → List Order → Option Nat
  | _, [] => none
  | idx, vo :: rest =>
      if vo.order_id == order_id then some (idx + 1)
      else catalogNodeAux order_id (idx + 1) rest

/-- 1-based catalog position of an order id, `none` when absent. -/
def catalogNode (valid_orders : List Order) (order_id : String) : Option Nat :=
  catalogNodeAux order_id 0 valid_orders

/-- Lines 537-542: the `action_verb` dict; `none` models a missing key, whose
lookup at line 544 raises `KeyError`. -/
def actionVerb (new_status : String) : Option String :=
  if new_status == sKEEP then some "added to route"
  else if new_status == sEARLY then some "moved to early delivery"
  else if new_status == sRESCHEDULE then some "moved to reschedule"
  else if new_status == sCANCEL then some "removed from route (cancelled)"
  else none

def notFoundMsg (order_id : String) : String :=
  "❌ Order #" ++ order_id ++ " not found in any category."

def noChangeMsg (order_id new_status : String) : String :=
  "ℹ️ Order #" ++ order_id ++ " is already in " ++ new_status ++ " status."

def capacityMsg (order_id : String) (current_units order_units vehicle_capacity : Int) : String :=
  "❌ Cannot add order #" ++ order_id ++ " to route: Would exceed capacity by "
    ++ toString (current_units + order_units - vehicle_capacity)
    ++ " units. Current: " ++ toString current_units ++ "/"
    ++ toString vehicle_capacity ++ " units."

def catalogMissMsg (order_id : String) : String :=
  "❌ Could not find order #" ++ order_id ++ " in valid orders list."

def confirmMsg (order_id verb reason : String) : String :=
  "✅ Order #" ++ order_id ++ " " ++ verb ++ ". " ++ reason

/-- Line 500: `sandbox_data[old_status_key] = [o for o in
sandbox_data[old_status_key] if str(o['order_id']) != str(order_id)]`. -/
def removeFromBucket (s : Sandbox) (key oid : String) : Sandbox :=
  dictSet s key ((dictGetD s key).filter (fun o => o.order_id != oid))

/-- Lines 531-534: ensure the target key exists, then append the copy. -/
def appendToBucket (s : Sandbox) (key : String) (o : SandboxOrder) : Sandbox :=
  dictSet s key ((dictGetD s key) ++ [o])

/-- Result of `execute_modify_sandbox_order`.  `ok` is the structured
`(success, message, sandbox_data)` return; `raised` is an uncaught exception
(the `action_verb[new_status]` `KeyError`), carrying the sandbox state at the
moment of the raise (the Python function mutates `sandbox_data` in place). -/
inductive MoveOutcome where
  | ok (success : Bool) (message : String) (sandbox : Sandbox)
  | raised (sandbox : Sandbox)
  deriving Repr, DecidableEq

/-- Lines 536-546: build the confirmation message from `action_verb`, raising
(`raised`) when `new_status` is not a key of that dict. -/
def finishMove (order_id new_status reason : String) (s2 : Sandbox) : MoveOutcome :=
  match actionVerb new_status with
  | some verb => MoveOutcome.ok true (confirmMsg order_id verb reason) s2
  | none => MoveOutcome.raised s2

/-- Lines 459-546: move an order between categories.  Mirrors the source
statement by statement: scan the four buckets; no-op success when already in
the target status; capacity check (only) for moves into KEEP; removal from the
old bucket; copy with new reason/category; node+sequence assignment for KEEP
(failing after the removal when the id is absent from `valid_orders`);
field stripping otherwise; append to the target bucket; confirmation verb. -/
def execute_modify_sandbox_order (order_id new_status reason : String)
    (sandbox_data : Sandbox) (valid_orders : List Order)
    (_time_matrix : List (List Int)) (vehicle_capacity : Int)
    (_window_minutes : Int) (_service_times : List Int) : MoveOutcome :=
  match findOrder sandbox_data order_id with
  | none => MoveOutcome.ok false (notFoundMsg order_id) sandbox_data
  | some (order_found, found_key) =>
      let current_status := pyUpper found_key
      if current_status == new_status then
        MoveOutcome.ok true (noChangeMsg order_id new_status) sandbox_data
      else
        let current_units := sumUnits (dictGetD sandbox_data kKeep)
        let order_units := order_found.units
        if new_status == sKEEP && decide (current_units + order_units > vehicle_capacity) then
          MoveOutcome.ok false (capacityMsg order_id current_units order_units vehicle_capacity)
            sandbox_data
        else
          let old_status_key := pyLower current_status
          let s1 := removeFromBucket sandbox_data old_status_key order_id
          let base : SandboxOrder := { order_found with reason := reason, category := new_status }
          if new_status == sKEEP then
            match catalogNode valid_orders order_id with
            | none => MoveOutcome.ok false (catalogMissMsg order_id) s1
            | some node =>
                let current_keep := dictGetD s1 kKeep
                let order_copy : SandboxOrder :=
                  { base with
                    node := some node
                    sequence_index := some (current_keep.length : Int)
                    estimated_arrival := some 0 }
                let s2 := dictSet s1 kKeep (current_keep ++ [order_copy])
                finishMove order_id new_status reason s2
          else
            let order_copy : SandboxOrder :=
              { base with
                node := none
                sequence_index := none
                estimated_arrival := none }
            let new_status_key := pyLower new_status
            let s2 := appendToBucket s1 new_status_key order_copy
            finishMove order_id new_status reason s2

/-- Sort key `x.get('sequence_index', 0)` of the KEEP sort. -/
def seqKey (o : SandboxOrder) : Int := o.sequence_index.getD 0

/-- Python `sorted(keep_orders, key=lambda x: x.get('sequence_index', 0))`:
the stable ascending sort by `seqKey` (insertion sort with a non-strict
comparison is stable, matching Python's stable `sorted`). -/
def sortKeep (l : Bucket) : Bucket :=
  List.insertionSort (fun a b => seqKey a ≤ seqKey b) l

/-- Python `time_matrix[i][j]`; `none` models the `IndexError` on an
out-of-range access. -/
def tmAt (time_matrix : List (List Int)) (i j : Nat) : Option Int :=
  (time_matrix.get? i).bind (fun row => row.get? j)

/-- The loop `for i in range(len(nodes) - 1): current_time +=
time_matrix[nodes[i]][nodes[i + 1]]`: total travel time over consecutive
node pairs. -/
def legsTime (time_matrix : List (List Int)) : List Nat → Option Int
  | [] => some 0
  | [_] => some 0
  | a :: b :: rest => do
      let t ← tmAt time_matrix a b
      let r ← legsTime time_matrix (b :: rest)
      pure (t + r)

/-- Lines 586-589: depot to first node, consecutive pairs, last node back to
the depot. -/
def routeDriveTime (time_matrix : List (List Int)) : List Nat → Option Int
  | [] => some 0
  | first :: rest => do
      let t0 ← tmAt time_matrix 0 first
      let mid ← legsTime time_matrix (first :: rest)
      let tl ← tmAt time_matrix ((first :: rest).getLast (List.cons_ne_nil first rest)) 0
      pure (t0 + mid + tl)

/-- `nodes = [o['node'] for o in sorted_keep]`; `none` models the `KeyError`
when a kept order carries no node. -/
def keepNodes : Bucket → Option (List Nat)
  | [] => some []
  | o :: rest => do
      let n ← o.node
      let ns ← keepNodes rest
      pure (n :: ns)

/-- Lines 592-595 guard: a node beyond the `service_times` range contributes
zero service time. -/
def svcInRoute (service_times : List Int) (node : Nat) : Int :=
  if node < service_times.length then service_times.getD node 0 else 0

/-- Lines 592-595: add each kept order's service time; `none` models the
`KeyError` on a kept order without a node. -/
def keptServiceTime (service_times : List Int) : Bucket → Option Int
  | [] => some 0
  | o :: rest => do
      let node ← o.node
      let r ← keptServiceTime service_times rest
      pure (svcInRoute service_times node + r)

/-- Lines 580-595: `current_time`, 0 for an empty KEEP, else drive time over
the KEEP orders sorted by sequence index plus their service times. -/
def currentRouteTime (time_matrix : List (List Int)) (service_times : List Int)
    (keep_orders : Bucket) : Option Int :=
  if keep_orders.isEmpty then some 0
  else do
    let sorted_keep := sortKeep keep_orders
    let nodes ← keepNodes sorted_keep
    let drive ← routeDriveTime time_matrix nodes
    let svc ← keptServiceTime service_times sorted_keep
    pure (drive + svc)

inductive Verdict where
  | FEASIBLE
  | QUESTIONABLE
  | NOT_FEASIBLE
  deriving Repr, DecidableEq

/-- Lines 631-637: FEASIBLE when both checks pass, QUESTIONABLE when only
capacity passes, NOT_FEASIBLE otherwise. -/
def mkVerdict (capacity_ok time_ok : Bool) : Verdict :=
  if capacity_ok && time_ok then Verdict.FEASIBLE
  else if capacity_ok then Verdict.QUESTIONABLE
  else Verdict.NOT_FEASIBLE

/-- The quantities `execute_check_feasibility` computes and reports for a
candidate order found in EARLY/RESCHEDULE/CANCEL. -/
structure FeasReport where
  current_units : Int
  order_units : Int
  remaining_capacity : Int
  current_time : Int
  remaining_time : Int
  capacity_ok : Bool
  order_node : Option Nat
  estimated_time : Option Int
  time_ok : Bool
  verdict : Verdict
  deriving Repr, DecidableEq

/-- Structured result of `execute_check_feasibility`: already kept, not
found, or a full feasibility report. -/
inductive FeasOutcome where
  | alreadyKeep
  | notFound
  | report (r : FeasReport)
  deriving Repr, DecidableEq

/-- Lines 549-639: the feasibility check.  Scans EARLY/RESCHEDULE/CANCEL for
the candidate (falling back to an already-kept / not-found report), computes
used capacity and the current route time, resolves the candidate's node via
its 1-based catalog position, estimates a round trip from the depot, and
combines the two checks into the verdict.  `none` models an uncaught
`IndexError`/`KeyError` inside the computation. -/
def execute_check_feasibility (order_id : String) (sandbox_data : Sandbox)
    (valid_orders : List Order) (time_matrix : List (List Int))
    (vehicle_capacity : Int) (window_minutes : Int)
    (service_times : List Int) : Option FeasOutcome :=
  match findOrderIn [kEarly, kReschedule, kCancel] sandbox_data order_id with
  | none =>
      if (bucketFind? (dictGetD sandbox_data kKeep) order_id).isSome then
        some FeasOutcome.alreadyKeep
      else
        some FeasOutcome.notFound
  | some (order_found, _) => do
      let current_units := sumUnits (dictGetD sandbox_data kKeep)
      let order_units := order_found.units
      let remaining_capacity := vehicle_capacity - current_units
      let current_time ← currentRouteTime time_matrix service_times (dictGetD sandbox_data kKeep)
      let remaining_time := window_minutes - current_time
      let capacity_ok := decide (order_units ≤ remaining_capacity)
      match catalogNode valid_orders order_id with
      | some order_node => do
          let depot_distance ← tmAt time_matrix 0 order_node
          let service_time :=
            if order_node < service_times.length then service_times.getD order_node 0 else 3
          let estimated_time := depot_distance * 2 + service_time
          let time_ok := decide (estimated_time ≤ remaining_time)
          some (FeasOutcome.report
            { current_units := current_units, order_units := order_units,
              remaining_capacity := remaining_capacity, current_time := current_time,
              remaining_time := remaining_time, capacity_ok := capacity_ok,
              order_node := some order_node, estimated_time := some estimated_time,
              time_ok := time_ok, verdict := mkVerdict capacity_ok time_ok })
      | none =>
          some (FeasOutcome.report
            { current_units := current_units, order_units := order_units,
              remaining_capacity := remaining_capacity, current_time := current_time,
              remaining_time := remaining_time, capacity_ok := capacity_ok,
              order_node := none, estimated_time := none,
              time_ok := false, verdict := mkVerdict capacity_ok false })

/-- The sandbox an invocation leaves behind, also when it raised. -/
def moveResultSandbox : MoveOutcome → Sandbox
  | MoveOutcome.ok _ _ s => s
  | MoveOutcome.raised s => s

/-- Spec-side total travel-time lookup (claims quantify over runs where every
access is in range, so the default is never consulted there). -/
def travelAt (time_matrix : List (List Int)) (i j : Nat) : Int :=
  (tmAt time_matrix i j).getD 0

/-- Spec-side sum of travel times over consecutive node pairs. -/
def consecTravel (time_matrix : List (List Int)) (ns : List Nat) : Int :=
  ((ns.zip ns.tail).map (fun p => travelAt time_matrix p.1 p.2)).sum

/-- Spec-side drive time: depot to first, consecutive pairs, last to depot. -/
def specDriveTime (time_matrix : List (List Int)) : List Nat → Int
  | [] => 0
  | first :: rest =>
      travelAt time_matrix 0 first + consecTravel time_matrix (first :: rest)
        + travelAt time_matrix ((first :: rest).getLast (List.cons_ne_nil first rest)) 0

/-- Spec-side total service time over a node sequence, zero beyond the
`service_times` range. -/
def specServiceTotal (service_times : List Int) (ns : List Nat) : Int :=
  (ns.map (svcInRoute service_times)).sum

/-- The KEEP contiguity invariant: the multiset of `sequence_index` values of
the bucket is exactly `{0, ..., n-1}`. -/
def keepSeqContiguous (l : Bucket) : Prop :=
  (l.map (fun o => o.sequence_index)).Perm
    ((List.range l.length).map (fun k => some (Int.ofNat k)))

instance keepSeqContiguousDecidable (l : Bucket) : Decidable (keepSeqContiguous l) :=
  inferInstanceAs (Decidable (List.Perm _ _))

/-! ### Dictionary lemmas -/

theorem dictGet?_dictSet_self (s : Sandbox) (k : String) (v : Bucket) :
    dictGet? (dictSet s k v) k = some v := by
  induction s with
  | nil => simp [dictSet, dictGet?]
  | cons hd tl ih =>
      obtain ⟨k0, w⟩ := hd
      by_cases hk : k0 = k
      · simp [dictSet, hk, dictGet?]
      · simp [dictSet, hk, dictGet?, ih]

theorem dictGetD_dictSet_self (s : Sandbox) (k : String) (v : Bucket) :
    dictGetD (dictSet s k v) k = v := by
  simp [dictGetD, dictGet?_dictSet_self]

theorem dictGet?_dictSet_ne (s : Sandbox) (k k2 : String) (v : Bucket) (h : k ≠ k2) :
    dictGet? (dictSet s k v) k2 = dictGet? s k2 := by
  induction s with
  | nil => simp [dictSet, dictGet?, h]
  | cons hd tl ih =>
      obtain ⟨k0, w⟩ := hd
      by_cases hk : k0 = k
      · subst hk
        simp [dictSet, dictGet?, h]
      · simp [dictSet, hk, dictGet?, ih]

theorem dictGetD_dictSet_ne (s : Sandbox) (k k2 : String) (v : Bucket) (h : k ≠ k2) :
    dictGetD (dictSet s k v) k2 = dictGetD s k2 := by
  simp [dictGetD, dictGet?_dictSet_ne s k k2 v h]

/-! ### Bucket scan lemmas -/

theorem bucketFind?_filter_self (l : Bucket) (oid : String) :
    bucketFind? (l.filter (fun o => o.order_id != oid)) oid = none := by
  induction l with
  | nil => rfl
  | cons o rest ih =>
      by_cases h : o.order_id = oid
      · simpa [List.filter_cons, h] using ih
      · simp [List.filter_cons, bucketFind?, List.find?_cons, h]


theorem bucketFind?_id (l : Bucket) (oid : String) (o : SandboxOrder)
    (h : bucketFind? l oid = some o) : o.order_id = oid := by
  have := List.find?_some h
  simpa using this

theorem bucketFind?_append (l1 l2 : Bucket) (oid : String) :
    bucketFind? (l1 ++ l2) oid = (bucketFind? l1 oid).or (bucketFind? l2 oid) := by
  simp [bucketFind?, List.find?_append]

theorem findOrderIn_key_mem (L : List String) (s : Sandbox) (oid : String)
    (o : SandboxOrder) (key : String)
    (h : findOrderIn L s oid = some (o, key)) : key ∈ L := by
  induction L with
  | nil => simp [findOrderIn] at h
  | cons st rest ih =>
      rw [findOrderIn] at h
      cases hb : bucketFind? (dictGetD s st) oid with
      | some o2 =>
          rw [hb] at h
          simp only [Option.some.injEq, Prod.mk.injEq] at h
          simp [h.2]
      | none =>
          rw [hb] at h
          exact List.mem_cons_of_mem st (ih h)

theorem findOrderIn_found (L : List String) (s : Sandbox) (oid : String)
    (o : SandboxOrder) (key : String)
    (h : findOrderIn L s oid = some (o, key)) :
    bucketFind? (dictGetD s key) oid = some o := by
  induction L with
  | nil => simp [findOrderIn] at h
  | cons st rest ih =>
      rw [findOrderIn] at h
      cases hb : bucketFind? (dictGetD s st) oid with
      | some o2 =>
          rw [hb] at h
          simp only [Option.some.injEq, Prod.mk.injEq] at h
          rw [← h.2]
          rw [hb, h.1]
      | none =>
          rw [hb] at h
          exact ih h

theorem findOrderIn_eq_none (L : List String) (s : Sandbox) (oid : String) :
    findOrderIn L s oid = none ↔
      ∀ k ∈ L, bucketFind? (dictGetD s k) oid = none := by
  induction L with
  | nil => simp [findOrderIn]
  | cons st rest ih =>
      rw [findOrderIn]
      cases hb : bucketFind? (dictGetD s st) oid with
      | some o2 =>
          simp only [List.mem_cons]
          constructor
          · intro h
            exact absurd h (by simp)
          · intro h
            exact absurd (h st (Or.inl rfl)) (by simp [hb])
      | none =>
          simp only [List.mem_cons, ih]
          constructor
          · intro h k hk
            rcases hk with hk | hk
            · rw [hk]; exact hb
            · exact h k hk
          · intro h k hk
            exact h k (Or.inr hk)

/-! ### Unit-sum lemmas -/

theorem sumUnits_eq_map_sum (l : Bucket) :
    sumUnits l = (l.map (fun o => o.units)).sum := by
  have key : ∀ (l : Bucket) (a : Int),
      l.foldl (fun acc o => acc + o.units) a = a + (l.map (fun o => o.units)).sum := by
    intro l
    induction l with
    | nil => intro a; simp
    | cons o rest ih =>
        intro a
        simp only [List.foldl_cons, List.map_cons, List.sum_cons, ih]
        ring
  simpa [sumUnits] using key l 0

theorem sumUnits_snoc (l : Bucket) (o : SandboxOrder) :
    sumUnits (l ++ [o]) = sumUnits l + o.units := by
  simp [sumUnits_eq_map_sum]

/-! ### Case-conversion facts on the four category strings -/

theorem pyUpper_kKeep : pyUpper kKeep = sKEEP := rfl

theorem pyUpper_kEarly : pyUpper kEarly = sEARLY := rfl

theorem pyUpper_kReschedule : pyUpper kReschedule = sRESCHEDULE := rfl

theorem pyUpper_kCancel : pyUpper kCancel = sCANCEL := rfl

theorem pyLower_sKEEP : pyLower sKEEP = kKeep := rfl

theorem pyLower_sEARLY : pyLower sEARLY = kEarly := rfl

theorem pyLower_sRESCHEDULE : pyLower sRESCHEDULE = kReschedule := rfl

theorem pyLower_sCANCEL : pyLower sCANCEL = kCancel := rfl

/-! ### Characterization of the mutator's outcomes -/

theorem modify_raised_actionVerb (oid t r : String) (s : Sandbox) (vo : List Order)
    (tm : List (List Int)) (cap win : Int) (st : List Int) (s2 : Sandbox)
    (h : execute_modify_sandbox_order oid t r s vo tm cap win st = MoveOutcome.raised s2) :
    actionVerb t = none := by
  unfold execute_modify_sandbox_order at h
  cases hf : findOrder s oid with
  | none => rw [hf] at h; simp at h
  | some p =>
      obtain ⟨o, key⟩ := p
      rw [hf] at h
      simp only at h
      split at h
      · simp at h
      · split at h
        · simp at h
        · split at h
          · split at h
            · simp at h
            · unfold finishMove at h
              cases hv : actionVerb t with
              | none => rfl
              | some verb => rw [hv] at h; simp at h
          · unfold finishMove at h
            cases hv : actionVerb t with
            | none => rfl
            | some verb => rw [hv] at h; simp at h

theorem actionVerb_some_mem (t v : String) (h : actionVerb t = some v) :
    t ∈ [sKEEP, sEARLY, sRESCHEDULE, sCANCEL] := by
  unfold actionVerb at h
  by_cases h1 : t = sKEEP
  · simp [h1]
  · by_cases h2 : t = sEARLY
    · simp [h2]
    · by_cases h3 : t = sRESCHEDULE
      · simp [h3]
      · by_cases h4 : t = sCANCEL
        · simp [h4]
        · simp [h1, h2, h3, h4] at h

theorem pyLower_pyUpper_scan (key : String) (h : key ∈ scanStatuses) :
    pyLower (pyUpper key) = key := by
  simp only [scanStatuses, List.mem_cons, List.not_mem_nil, or_false] at h
  rcases h with rfl | rfl | rfl | rfl <;> rfl

theorem scan_pyUpper_ne_keep (key : String) (hmem : key ∈ scanStatuses)
    (h : key ≠ kKeep) : pyUpper key ≠ sKEEP := by
  simp only [scanStatuses, List.mem_cons, List.not_mem_nil, or_false] at hmem
  rcases hmem with rfl | rfl | rfl | rfl
  · exact absurd rfl h
  · decide
  · decide
  · decide

/-- Anatomy of a successful `execute_modify_sandbox_order` call: a no-op
(already in the target status), an insertion into KEEP, or a move into one of
the three non-KEEP buckets. -/
theorem modify_ok_true_cases (oid t r : String) (s : Sandbox) (vo : List Order)
    (tm : List (List Int)) (cap win : Int) (st : List Int) (m : String) (s2 : Sandbox)
    (h : execute_modify_sandbox_order oid t r s vo tm cap win st = MoveOutcome.ok true m s2) :
    (∃ o key, findOrder s oid = some (o, key) ∧ pyUpper key = t ∧ s2 = s
        ∧ m = noChangeMsg oid t)
    ∨ (∃ o key n, findOrder s oid = some (o, key) ∧ key ∈ scanStatuses
        ∧ pyUpper key ≠ t ∧ t = sKEEP
        ∧ sumUnits (dictGetD s kKeep) + o.units ≤ cap
        ∧ catalogNode vo oid = some n
        ∧ s2 = dictSet (removeFromBucket s key oid) kKeep
            ((dictGetD (removeFromBucket s key oid) kKeep)
              ++ [{ o with
                    reason := r
                    category := t
                    node := some n
                    sequence_index :=
                      some ((dictGetD (removeFromBucket s key oid) kKeep).length : Int)
                    estimated_arrival := some 0 }]))
    ∨ (∃ o key, findOrder s oid = some (o, key) ∧ key ∈ scanStatuses
        ∧ pyUpper key ≠ t ∧ t ∈ [sEARLY, sRESCHEDULE, sCANCEL]
        ∧ s2 = appendToBucket (removeFromBucket s key oid) (pyLower t)
            { o with
              reason := r
              category := t
              node := none
              sequence_index := none
              estimated_arrival := none }) := by
  unfold execute_modify_sandbox_order at h
  cases hf : findOrder s oid with
  | none => rw [hf] at h; simp at h
  | some p =>
      obtain ⟨o, key⟩ := p
      rw [hf] at h
      have hmem : key ∈ scanStatuses := findOrderIn_key_mem scanStatuses s oid o key hf
      have hlu : pyLower (pyUpper key) = key := pyLower_pyUpper_scan key hmem
      simp only at h
      rw [hlu] at h
      split at h
      · rename_i h1
        left
        refine ⟨o, key, rfl, by simpa using h1, ?_, ?_⟩
        · simp only [MoveOutcome.ok.injEq] at h
          exact h.2.2.symm
        · simp only [MoveOutcome.ok.injEq] at h
          exact h.2.1.symm
      · rename_i h1
        split at h
        · simp at h
        · rename_i h2
          split at h
          · rename_i h3
            have ht : t = sKEEP := by simpa using h3
            split at h
            · simp at h
            · rename_i n h4
              right; left
              subst ht
              unfold finishMove at h
              have hav : actionVerb sKEEP = some ("added to route") := rfl
              rw [hav] at h
              simp only [MoveOutcome.ok.injEq] at h
              refine ⟨o, key, n, rfl, hmem, by simpa using h1, rfl, ?_, h4, h.2.2.symm⟩
              have h2b : ¬(sumUnits (dictGetD s kKeep) + o.units > cap) := by
                simpa using h2
              omega
          · rename_i h3
            right; right
            unfold finishMove at h
            cases hv : actionVerb t with
            | none => rw [hv] at h; simp at h
            | some verb =>
                rw [hv] at h
                simp only [MoveOutcome.ok.injEq] at h
                have hmem4 := actionVerb_some_mem t verb hv
                have htk : t ≠ sKEEP := by simpa using h3
                have hmem3 : t ∈ [sEARLY, sRESCHEDULE, sCANCEL] := by
                  simp only [List.mem_cons, List.not_mem_nil, or_false] at hmem4 ⊢
                  rcases hmem4 with h | h | h | h
                  · exact absurd h htk
                  · exact Or.inl h
                  · exact Or.inr (Or.inl h)
                  · exact Or.inr (Or.inr h)
                exact ⟨o, key, rfl, hmem, by simpa using h1, hmem3, h.2.2.symm⟩

/-- Anatomy of a feasibility report: how each reported quantity is computed
from the sandbox, catalog, matrix and constraint inputs. -/
theorem check_report_anatomy (oid : String) (s : Sandbox) (vo : List Order)
    (tm : List (List Int)) (cap win : Int) (st : List Int) (rep : FeasReport)
    (h : execute_check_feasibility oid s vo tm cap win st
        = some (FeasOutcome.report rep)) :
    ∃ o key, findOrderIn [kEarly, kReschedule, kCancel] s oid = some (o, key)
      ∧ rep.current_units = sumUnits (dictGetD s kKeep)
      ∧ rep.order_units = o.units
      ∧ rep.remaining_capacity = cap - sumUnits (dictGetD s kKeep)
      ∧ currentRouteTime tm st (dictGetD s kKeep) = some rep.current_time
      ∧ rep.remaining_time = win - rep.current_time
      ∧ rep.capacity_ok = decide (rep.order_units ≤ rep.remaining_capacity)
      ∧ rep.order_node = catalogNode vo oid
      ∧ rep.verdict = mkVerdict rep.capacity_ok rep.time_ok
      ∧ (∀ n, rep.order_node = some n → ∃ d, tmAt tm 0 n = some d
          ∧ rep.estimated_time = some (d * 2 + (if n < st.length then st.getD n 0 else 3))
          ∧ rep.time_ok
              = decide (d * 2 + (if n < st.length then st.getD n 0 else 3)
                  ≤ rep.remaining_time))
      ∧ (rep.order_node = none → rep.time_ok = false ∧ rep.estimated_time = none) := by
  unfold execute_check_feasibility at h
  cases hfo : findOrderIn [kEarly, kReschedule, kCancel] s oid with
  | none =>
      rw [hfo] at h
      simp only at h
      split at h <;> simp at h
  | some p =>
      obtain ⟨o, key⟩ := p
      rw [hfo] at h
      simp only at h
      cases hct : currentRouteTime tm st (dictGetD s kKeep) with
      | none => rw [hct] at h; simp at h
      | some ct =>
          rw [hct] at h
          simp only [Option.bind_eq_bind, Option.some_bind] at h
          cases hcat : catalogNode vo oid with
          | some n0 =>
              rw [hcat] at h
              simp only at h
              cases htm : tmAt tm 0 n0 with
              | none => rw [htm] at h; simp at h
              | some d =>
                  rw [htm] at h
                  simp only [Option.some_bind, Option.some.injEq,
                    FeasOutcome.report.injEq] at h
                  subst h
                  refine ⟨o, key, rfl, rfl, rfl, rfl, rfl, rfl, rfl, rfl, rfl, ?_, ?_⟩
                  · intro n hn
                    simp only [Option.some.injEq] at hn
                    subst hn
                    exact ⟨d, htm, rfl, rfl⟩
                  · intro hn
                    simp at hn
          | none =>
              rw [hcat] at h
              simp only [Option.some.injEq, FeasOutcome.report.injEq] at h
              subst h
              refine ⟨o, key, rfl, rfl, rfl, rfl, rfl, rfl, rfl, rfl, rfl, ?_, ?_⟩
              · intro n hn
                simp at hn
              · intro _
                exact ⟨rfl, rfl⟩

/-! ### Bucket-level corollaries of the dictionary lemmas -/

theorem dictGetD_removeFromBucket_self (s : Sandbox) (key oid : String) :
    dictGetD (removeFromBucket s key oid) key
      = (dictGetD s key).filter (fun o => o.order_id != oid) :=
  dictGetD_dictSet_self s key _

theorem dictGetD_removeFromBucket_ne (s : Sandbox) (key oid k2 : String) (h : key ≠ k2) :
    dictGetD (removeFromBucket s key oid) k2 = dictGetD s k2 :=
  dictGetD_dictSet_ne s key k2 _ h

theorem dictGetD_appendToBucket_self (s : Sandbox) (key : String) (o : SandboxOrder) :
    dictGetD (appendToBucket s key o) key = dictGetD s key ++ [o] :=
  dictGetD_dictSet_self s key _

theorem dictGetD_appendToBucket_ne (s : Sandbox) (key k2 : String) (o : SandboxOrder)
    (h : key ≠ k2) :
    dictGetD (appendToBucket s key o) k2 = dictGetD s k2 :=
  dictGetD_dictSet_ne s key k2 _ h

/-! ### Route-time computation versus its closed form -/

theorem tmAt_spec (tm : List (List Int)) (i j : Nat) (d : Int) (h : tmAt tm i j = some d) :
    d = travelAt tm i j := by
  simp [travelAt, h]

theorem legsTime_spec (tm : List (List Int)) :
    ∀ (ns : List Nat) (v : Int), legsTime tm ns = some v → v = consecTravel tm ns := by
  intro ns
  induction ns with
  | nil =>
      intro v h
      simp only [legsTime, Option.some.injEq] at h
      simp [consecTravel, ← h]
  | cons a rest ih =>
      cases rest with
      | nil =>
          intro v h
          simp only [legsTime, Option.some.injEq] at h
          simp [consecTravel, ← h]
      | cons b rest2 =>
          intro v h
          rw [legsTime] at h
          cases ht : tmAt tm a b with
          | none => rw [ht] at h; simp at h
          | some t =>
              rw [ht] at h
              simp only [Option.bind_eq_bind, Option.some_bind] at h
              cases hr : legsTime tm (b :: rest2) with
              | none => rw [hr] at h; simp at h
              | some rv =>
                  rw [hr] at h
                  simp only [Option.some_bind, Option.pure_def, Option.some.injEq] at h
                  have hrv := ih rv hr
                  rw [← h, hrv, tmAt_spec tm a b t ht]
                  simp [consecTravel, List.zip_cons_cons]

theorem routeDriveTime_spec (tm : List (List Int)) (ns : List Nat) (v : Int)
    (h : routeDriveTime tm ns = some v) : v = specDriveTime tm ns := by
  cases ns with
  | nil =>
      simp only [routeDriveTime, Option.some.injEq] at h
      simp [specDriveTime, ← h]
  | cons first rest =>
      rw [routeDriveTime] at h
      cases h0 : tmAt tm 0 first with
      | none => rw [h0] at h; simp at h
      | some t0 =>
          rw [h0] at h
          simp only [Option.bind_eq_bind, Option.some_bind] at h
          cases hm : legsTime tm (first :: rest) with
          | none => rw [hm] at h; simp at h
          | some mid =>
              rw [hm] at h
              simp only [Option.some_bind] at h
              cases hl : tmAt tm ((first :: rest).getLast (List.cons_ne_nil first rest)) 0 with
              | none => rw [hl] at h; simp at h
              | some tl =>
                  rw [hl] at h
                  simp only [Option.some_bind, Option.pure_def, Option.some.injEq] at h
                  rw [← h, tmAt_spec tm 0 first t0 h0, legsTime_spec tm (first :: rest) mid hm,
                    tmAt_spec tm _ 0 tl hl]
                  simp [specDriveTime, consecTravel]

theorem keptServiceTime_spec (st : List Int) :
    ∀ (l : Bucket) (ns : List Nat) (v : Int), keepNodes l = some ns →
      keptServiceTime st l = some v → v = specServiceTotal st ns := by
  intro l
  induction l with
  | nil =>
      intro ns v hn hv
      simp only [keepNodes, Option.some.injEq] at hn
      simp only [keptServiceTime, Option.some.injEq] at hv
      simp [specServiceTotal, ← hn, ← hv]
  | cons o rest ih =>
      intro ns v hn hv
      rw [keepNodes] at hn
      rw [keptServiceTime] at hv
      cases ho : o.node with
      | none => rw [ho] at hn; simp at hn
      | some n =>
          rw [ho] at hn hv
          simp only [Option.bind_eq_bind, Option.some_bind] at hn hv
          cases hrest : keepNodes rest with
          | none => rw [hrest] at hn; simp at hn
          | some ns0 =>
              rw [hrest] at hn
              simp only [Option.some_bind, Option.pure_def, Option.some.injEq] at hn
              cases hsv : keptServiceTime st rest with
              | none => rw [hsv] at hv; simp at hv
              | some r =>
                  rw [hsv] at hv
                  simp only [Option.some_bind, Option.pure_def, Option.some.injEq] at hv
                  rw [← hn, ← hv, ih ns0 r hrest hsv]
                  simp [specServiceTotal]

theorem currentRouteTime_spec (tm : List (List Int)) (st : List Int) (keep : Bucket)
    (ct : Int) (ns : List Nat)
    (hn : keepNodes (sortKeep keep) = some ns)
    (h : currentRouteTime tm st keep = some ct) :
    ct = specDriveTime tm ns + specServiceTotal st ns := by
  unfold currentRouteTime at h
  by_cases hemp : keep.isEmpty
  · rw [if_pos hemp] at h
    simp only [Option.some.injEq] at h
    have hkeep : keep = [] := List.isEmpty_iff.mp hemp
    subst hkeep
    have hns : ns = [] := by
      have : keepNodes (sortKeep []) = some [] := rfl
      rw [hn] at this
      simpa using this.symm
    subst hns
    simp [specDriveTime, specServiceTotal, ← h]
  · rw [if_neg hemp] at h
    simp only at h
    rw [hn] at h
    simp only [Option.bind_eq_bind, Option.some_bind] at h
    cases hd : routeDriveTime tm ns with
    | none => rw [hd] at h; simp at h
    | some drive =>
        rw [hd] at h
        simp only [Option.some_bind] at h
        cases hs : keptServiceTime st (sortKeep keep) with
        | none => rw [hs] at h; simp at h
        | some svc =>
            rw [hs] at h
            simp only [Option.some_bind, Option.pure_def, Option.some.injEq] at h
            rw [← h, routeDriveTime_spec tm ns drive hd,
              keptServiceTime_spec st (sortKeep keep) ns svc hn hs]

/-! ### Catalog position -/

theorem catalogNodeAux_findIdx (oid : String) (l : List Order) :
    ∀ i, catalogNodeAux oid i l
      = (List.findIdx? (fun vo => vo.order_id == oid) l i).map (fun j => j + 1) := by
  induction l with
  | nil => intro i; simp [catalogNodeAux, List.findIdx?]
  | cons vo rest ih =>
      intro i
      by_cases hb : vo.order_id = oid
      · simp [catalogNodeAux, hb, List.findIdx?_cons]
      · simp [catalogNodeAux, hb, List.findIdx?_cons, ih]

theorem catalogNode_eq_findIdx (valid_orders : List Order) (oid : String) :
    catalogNode valid_orders oid
      = (valid_orders.findIdx? (fun vo => vo.order_id == oid)).map (fun j => j + 1) :=
  catalogNodeAux_findIdx oid valid_orders 0

/-! ### Contiguity of KEEP sequence indices -/

theorem keepSeqContiguous_snoc (K : Bucket) (c : SandboxOrder)
    (hc : keepSeqContiguous K)
    (hseq : c.sequence_index = some (K.length : Int)) :
    keepSeqContiguous (K ++ [c]) := by
  unfold keepSeqContiguous at hc ⊢
  rw [List.map_append, List.length_append]
  simp only [List.map_cons, List.map_nil, List.length_cons, List.length_nil, hseq]
  rw [List.range_succ, List.map_append]
  exact hc.append (by simp)

/-! ### Concrete scenarios for witnesses and counterexamples -/

def id101 : String := "101"

def id102 : String := "102"

def id103 : String := "103"

def id201 : String := "201"

def id202 : String := "202"

def id42 : String := "42"

def id99999 : String := "99999"

def rsnOpt : String := "optimized"

def rsnFar : String := "far from cluster"

def rsnDrop : String := "customer request"

def rsnRetry : String := "retry"

def tPAUSE : String := "PAUSE"

/-- A three-order catalog; catalog positions give nodes 1, 2, 3. -/
def catA : List Order := [⟨id101, 30⟩, ⟨id102, 40⟩, ⟨id103, 10⟩]

def ordA : SandboxOrder :=
  { order_id := id101, units := 30, reason := rsnOpt, category := sKEEP,
    node := some 1, sequence_index := some 0, estimated_arrival := some 10 }

def ordB : SandboxOrder :=
  { order_id := id102, units := 40, reason := rsnOpt, category := sKEEP,
    node := some 2, sequence_index := some 1, estimated_arrival := some 20 }

def ordC : SandboxOrder :=
  { order_id := id103, units := 10, reason := rsnFar, category := sEARLY }

/-- Sandbox with two kept orders and one early-delivery candidate. -/
def sbxA : Sandbox :=
  [(kKeep, [ordA, ordB]), (kEarly, [ordC]), (kReschedule, []), (kCancel, [])]

/-- 4x4 travel-time matrix over depot plus nodes 1-3. -/
def tmA : List (List Int) :=
  [[0, 10, 20, 30], [10, 0, 5, 15], [20, 5, 0, 8], [30, 15, 8, 0]]

/-- Service times for depot and nodes 1-2; node 3 is beyond the range. -/
def stA : List Int := [0, 4, 6]

/-- Capacity-overflow scenario: 95 kept units, a 10-unit candidate,
capacity 100 (the spec's worked example). -/
def catB : List Order := [⟨id201, 95⟩, ⟨id202, 10⟩]

def ordD : SandboxOrder :=
  { order_id := id201, units := 95, reason := rsnOpt, category := sKEEP,
    node := some 1, sequence_index := some 0, estimated_arrival := some 5 }

def ordE : SandboxOrder :=
  { order_id := id202, units := 10, reason := rsnFar, category := sEARLY }

def sbxB : Sandbox :=
  [(kKeep, [ordD]), (kEarly, [ordE]), (kReschedule, []), (kCancel, [])]

/-- NodeUnresolved scenario: order 42 sits in CANCEL but is absent from the
order catalog. -/
def ordF : SandboxOrder :=
  { order_id := id42, units := 5, reason := rsnFar, category := sCANCEL }

def sbxC : Sandbox :=
  [(kKeep, []), (kEarly, []), (kReschedule, []), (kCancel, [ordF])]

/-- State `execute_modify_sandbox_order` leaves behind on the NodeUnresolved
failure for `sbxC`: order 42 has vanished from every bucket. -/
def sbxCafter : Sandbox :=
  [(kKeep, []), (kEarly, []), (kReschedule, []), (kCancel, [])]

/-! ### Claim C1 -/

/-- C1: the claim states that when a move to KEEP fails because the order id
is not in the order catalog (NodeUnresolved), the sandbox is left unchanged
and the order is still in its original category.  The code violates this: it
removes the order from its old bucket (line 500) before attempting the
catalog lookup (lines 509-517), so the `success=false` return leaves a
sandbox from which the order has vanished.  Evaluated at the concrete
failing input: order 42 in CANCEL, empty catalog, target KEEP. -/
theorem C1_node_unresolved_drops_order :
    execute_modify_sandbox_order id42 sKEEP rsnRetry sbxC [] tmA 100 120 stA
      = MoveOutcome.ok false (catalogMissMsg id42) sbxCafter
    ∧ findOrder sbxCafter id42 = none
    ∧ bucketFind? (dictGetD sbxC kCancel) id42 = some ordF := by
  refine ⟨by decide, by decide, by decide⟩

/-! ### Claim C2 -/

/-- C2 counterexample: moving order 101 (sequence index 0) out of KEEP to
CANCEL succeeds but leaves KEEP holding only order 102 with sequence index 1,
so the indices are no longer contiguous `0..n-1`, refuting the claim for
moves out of KEEP. -/
def sbxA_cancel101 : Sandbox :=
  [(kKeep, [ordB]), (kEarly, [ordC]), (kReschedule, []),
   (kCancel, [{ ordA with
                reason := rsnDrop
                category := sCANCEL
                node := none
                sequence_index := none
                estimated_arrival := none }])]

def msgCancel101 : String := confirmMsg id101 ("removed from route (cancelled)") rsnDrop

/-- C2 counterexample: a successful move out of KEEP breaks contiguity of the
KEEP `sequence_index` values. -/
theorem C2_counterexample :
    keepSeqContiguous (dictGetD sbxA kKeep)
    ∧ execute_modify_sandbox_order id101 sCANCEL rsnDrop sbxA catA tmA 100 120 stA
        = MoveOutcome.ok true msgCancel101 sbxA_cancel101
    ∧ ¬ keepSeqContiguous (dictGetD sbxA_cancel101 kKeep) := by
  refine ⟨by decide, by decide, by decide⟩

/-- C2 (amended): for every sandbox whose KEEP bucket has contiguous
`sequence_index` values `0..n-1`, any successful `move_order` that moves an
order into KEEP or whose source bucket is not KEEP (in particular any move
between non-KEEP buckets and any no-op) leaves the KEEP `sequence_index`
values contiguous again; moves out of KEEP are excluded, as the
counterexample shows they can break contiguity. -/
theorem C2_keep_contiguous_amended (oid t r m : String) (s s2 : Sandbox)
    (vo : List Order) (tm : List (List Int)) (cap win : Int) (st : List Int)
    (hc : keepSeqContiguous (dictGetD s kKeep))
    (h : execute_modify_sandbox_order oid t r s vo tm cap win st = MoveOutcome.ok true m s2)
    (hside : t = sKEEP ∨ ∃ o key, findOrder s oid = some (o, key) ∧ key ≠ kKeep) :
    keepSeqContiguous (dictGetD s2 kKeep) := by
  rcases modify_ok_true_cases oid t r s vo tm cap win st m s2 h with hcase | hcase | hcase
  · obtain ⟨o, key, hf, hup, hs2, -⟩ := hcase
    rw [hs2]
    exact hc
  · obtain ⟨o, key, n, hf, hmem, hne, ht, hcap, hcat, hs2⟩ := hcase
    have hkk : key ≠ kKeep := by
      intro hk
      subst hk
      rw [pyUpper_kKeep] at hne
      exact hne ht.symm
    rw [hs2, dictGetD_dictSet_self, dictGetD_removeFromBucket_ne s key oid kKeep hkk]
    exact keepSeqContiguous_snoc (dictGetD s kKeep) _ hc rfl
  · obtain ⟨o, key, hf, hmem, hne, hm3, hs2⟩ := hcase
    rcases hside with ht | ⟨o2, key2, hf2, hk2⟩
    · subst ht
      exact absurd hm3 (by decide)
    · rw [hf] at hf2
      simp only [Option.some.injEq, Prod.mk.injEq] at hf2
      have hkk : key ≠ kKeep := hf2.2 ▸ hk2
      have hlk : pyLower t ≠ kKeep := by
        simp only [List.mem_cons, List.not_mem_nil, or_false] at hm3
        rcases hm3 with rfl | rfl | rfl <;> decide
      rw [hs2, dictGetD_appendToBucket_ne _ _ _ _ hlk,
        dictGetD_removeFromBucket_ne s key oid kKeep hkk]
      exact hc

/-- C2 witness: moving the early order 103 into KEEP on a sandbox whose KEEP
indices are `0, 1` yields indices `0, 1, 2` — contiguity is preserved. -/
def sbxA_keep103 : Sandbox :=
  [(kKeep, [ordA, ordB,
    { ordC with
      reason := rsnRetry
      category := sKEEP
      node := some 3
      sequence_index := some 2
      estimated_arrival := some 0 }]),
   (kEarly, []), (kReschedule, []), (kCancel, [])]

def msgKeep103 : String := confirmMsg id103 ("added to route") rsnRetry

theorem C2_keep_contiguous_amended_witness :
    keepSeqContiguous (dictGetD sbxA_keep103 kKeep) :=
  C2_keep_contiguous_amended id103 sKEEP rsnRetry msgKeep103 sbxA sbxA_keep103
    catA tmA 100 120 stA (by decide) (by decide) (Or.inl rfl)

/-! ### Claim C3 -/

/-- C3: capacity invariant of moves into KEEP.  (1) If the KEEP unit sum does
not exceed capacity, then after any successful `move_order` targeting KEEP it
still does not.  (2) If the order is found outside KEEP and its units would
overflow capacity, the call fails with the exact overflow-citing message and
returns the sandbox unchanged. -/
theorem C3_capacity_checked (oid r : String) (s : Sandbox) (vo : List Order)
    (tm : List (List Int)) (cap win : Int) (st : List Int) :
    (∀ m s2, sumUnits (dictGetD s kKeep) ≤ cap →
      execute_modify_sandbox_order oid sKEEP r s vo tm cap win st = MoveOutcome.ok true m s2 →
      sumUnits (dictGetD s2 kKeep) ≤ cap)
    ∧ (∀ o key, findOrder s oid = some (o, key) → key ≠ kKeep →
      sumUnits (dictGetD s kKeep) + o.units > cap →
      execute_modify_sandbox_order oid sKEEP r s vo tm cap win st
        = MoveOutcome.ok false
            (capacityMsg oid (sumUnits (dictGetD s kKeep)) o.units cap) s) := by
  constructor
  · intro m s2 hsum h
    rcases modify_ok_true_cases oid sKEEP r s vo tm cap win st m s2 h with hcase | hcase | hcase
    · obtain ⟨o, key, hf, hup, hs2, -⟩ := hcase
      rw [hs2]
      exact hsum
    · obtain ⟨o, key, n, hf, hmem, hne, -, hcap, hcat, hs2⟩ := hcase
      have hkk : key ≠ kKeep := by
        intro hk
        subst hk
        rw [pyUpper_kKeep] at hne
        exact hne rfl
      rw [hs2, dictGetD_dictSet_self, dictGetD_removeFromBucket_ne s key oid kKeep hkk,
        sumUnits_snoc]
      exact hcap
    · obtain ⟨o, key, hf, hmem, hne, hm3, hs2⟩ := hcase
      exact absurd hm3 (by decide)
  · intro o key hf hkk hover
    have hup : pyUpper key ≠ sKEEP :=
      scan_pyUpper_ne_keep key (findOrderIn_key_mem scanStatuses s oid o key hf) hkk
    unfold execute_modify_sandbox_order
    rw [hf]
    simp only
    rw [if_neg (by simpa using hup)]
    rw [if_pos (by simp [hover])]

/-- C3 witness: part (1) at the feasible insertion of order 103 into `sbxA`
(70 + 10 ≤ 100), part (2) at the spec's worked example on `sbxB`
(95 + 10 > 100, overflow 5). -/
theorem C3_capacity_checked_witness :
    sumUnits (dictGetD sbxA_keep103 kKeep) ≤ 100
    ∧ execute_modify_sandbox_order id202 sKEEP rsnRetry sbxB catB tmA 100 120 stA
      = MoveOutcome.ok false (capacityMsg id202 95 10 100) sbxB :=
  ⟨(C3_capacity_checked id103 rsnRetry sbxA catA tmA 100 120 stA).1 msgKeep103 sbxA_keep103
      (by decide) (by decide),
   (C3_capacity_checked id202 rsnRetry sbxB catB tmA 100 120 stA).2 ordE kEarly
      (by decide) (by decide) (by decide)⟩

/-! ### Claim C4 -/

/-- C4: the feasibility verdict for an order found in
EARLY/RESCHEDULE/CANCEL is exactly FEASIBLE when capacity and time are both
ok, QUESTIONABLE when only capacity is ok, and NOT_FEASIBLE whenever the
capacity check fails, regardless of the time estimate. -/
theorem C4_verdict_precedence (oid : String) (s : Sandbox) (vo : List Order)
    (tm : List (List Int)) (cap win : Int) (st : List Int) (rep : FeasReport)
    (h : execute_check_feasibility oid s vo tm cap win st
        = some (FeasOutcome.report rep)) :
    rep.verdict
      = (if rep.capacity_ok then
          (if rep.time_ok then Verdict.FEASIBLE else Verdict.QUESTIONABLE)
         else Verdict.NOT_FEASIBLE) := by
  obtain ⟨o, key, -, -, -, -, -, -, -, -, hv, -, -⟩ :=
    check_report_anatomy oid s vo tm cap win st rep h
  rw [hv]
  cases hcap : rep.capacity_ok <;> cases htok : rep.time_ok <;> simp [mkVerdict]

def repA : FeasReport :=
  { current_units := 70, order_units := 10, remaining_capacity := 30,
    current_time := 45, remaining_time := 75, capacity_ok := true,
    order_node := some 3, estimated_time := some 63, time_ok := true,
    verdict := Verdict.FEASIBLE }

/-- C4 witness: the candidate order 103 on `sbxA` produces the report `repA`
(FEASIBLE), and the theorem yields its verdict equation. -/
theorem C4_verdict_precedence_witness :
    execute_check_feasibility id103 sbxA catA tmA 100 120 stA
      = some (FeasOutcome.report repA)
    ∧ repA.verdict
      = (if repA.capacity_ok then
          (if repA.time_ok then Verdict.FEASIBLE else Verdict.QUESTIONABLE)
         else Verdict.NOT_FEASIBLE) :=
  ⟨by decide, C4_verdict_precedence id103 sbxA catA tmA 100 120 stA repA (by decide)⟩

/-! ### Claim C5 -/

/-- C5: the reported `current_time` is 0 for an empty KEEP, and otherwise the
sum of the travel times depot→first, consecutive pairs and last→depot over
the KEEP orders sorted by ascending sequence index, plus each kept order's
service time, a node beyond the `service_times` range contributing 0. -/
theorem C5_current_route_time (oid : String) (s : Sandbox) (vo : List Order)
    (tm : List (List Int)) (cap win : Int) (st : List Int) (rep : FeasReport)
    (ns : List Nat)
    (h : execute_check_feasibility oid s vo tm cap win st
        = some (FeasOutcome.report rep))
    (hn : keepNodes (sortKeep (dictGetD s kKeep)) = some ns) :
    rep.current_time = specDriveTime tm ns + specServiceTotal st ns
    ∧ (dictGetD s kKeep = [] → rep.current_time = 0) := by
  obtain ⟨o, key, -, -, -, -, hct, -, -, -, -, -, -⟩ :=
    check_report_anatomy oid s vo tm cap win st rep h
  constructor
  · exact currentRouteTime_spec tm st _ rep.current_time ns hn hct
  · intro hkeep
    rw [hkeep] at hct
    have h0 : currentRouteTime tm st [] = some 0 := rfl
    rw [h0] at hct
    simpa using hct.symm

/-- C5 witness: on `sbxA` the sorted KEEP nodes are `[1, 2]` and the reported
route time 45 equals the closed-form drive time plus service time. -/
theorem C5_current_route_time_witness :
    repA.current_time = specDriveTime tmA [1, 2] + specServiceTotal stA [1, 2]
    ∧ (dictGetD sbxA kKeep = [] → repA.current_time = 0) :=
  C5_current_route_time id103 sbxA catA tmA 100 120 stA repA [1, 2]
    (by decide) (by decide)

/-! ### Claim C6 -/

/-- C6: the candidate's node is its 1-based catalog position; when it
resolves, the estimate is twice the depot travel time plus the service time
(default 3 when the node has no `service_times` entry) and `time_ok` is
exactly `estimated_time ≤ remaining_time`; when it does not resolve,
`time_ok` is false. -/
theorem C6_candidate_estimate (oid : String) (s : Sandbox) (vo : List Order)
    (tm : List (List Int)) (cap win : Int) (st : List Int) (rep : FeasReport)
    (h : execute_check_feasibility oid s vo tm cap win st
        = some (FeasOutcome.report rep)) :
    rep.order_node
      = (vo.findIdx? (fun v => v.order_id == oid)).map (fun j => j + 1)
    ∧ (∀ n, rep.order_node = some n →
        rep.estimated_time
          = some (2 * travelAt tm 0 n + (if n < st.length then st.getD n 0 else 3))
        ∧ rep.time_ok
          = decide (2 * travelAt tm 0 n + (if n < st.length then st.getD n 0 else 3)
              ≤ rep.remaining_time))
    ∧ (rep.order_node = none → rep.time_ok = false) := by
  obtain ⟨o, key, -, -, -, -, -, -, -, hnode, -, hsome, hnone⟩ :=
    check_report_anatomy oid s vo tm cap win st rep h
  refine ⟨by rw [hnode, catalogNode_eq_findIdx], ?_, fun hn => (hnone hn).1⟩
  intro n hn
  obtain ⟨d, htm, hest, htok⟩ := hsome n hn
  have hd : d = travelAt tm 0 n := tmAt_spec tm 0 n d htm
  subst hd
  have hcomm : travelAt tm 0 n * 2 = 2 * travelAt tm 0 n := mul_comm _ _
  constructor
  · rw [hest, hcomm]
  · rw [htok, hcomm]

/-- C6 witness: order 103 resolves to node 3 (catalog position 3); node 3 has
no service-time entry, so the estimate is `2*30 + 3 = 63`. -/
theorem C6_candidate_estimate_witness :
    repA.order_node
      = (catA.findIdx? (fun v => v.order_id == id103)).map (fun j => j + 1)
    ∧ (∀ n, repA.order_node = some n →
        repA.estimated_time
          = some (2 * travelAt tmA 0 n + (if n < stA.length then stA.getD n 0 else 3))
        ∧ repA.time_ok
          = decide (2 * travelAt tmA 0 n + (if n < stA.length then stA.getD n 0 else 3)
              ≤ repA.remaining_time))
    ∧ (repA.order_node = none → repA.time_ok = false) :=
  C6_candidate_estimate id103 sbxA catA tmA 100 120 stA repA (by decide)

/-! ### Claim C7 -/

/-- C7: an order id absent from all four buckets makes `check_feasibility`
return the not-found report (no exception) and makes `move_order` return
`success=false` with the not-found message, the sandbox unmodified. -/
theorem C7_not_found (oid t r : String) (s : Sandbox) (vo : List Order)
    (tm : List (List Int)) (cap win : Int) (st : List Int)
    (hf : findOrder s oid = none) :
    execute_check_feasibility oid s vo tm cap win st = some FeasOutcome.notFound
    ∧ execute_modify_sandbox_order oid t r s vo tm cap win st
        = MoveOutcome.ok false (notFoundMsg oid) s := by
  have hall : ∀ k ∈ scanStatuses, bucketFind? (dictGetD s k) oid = none :=
    (findOrderIn_eq_none scanStatuses s oid).mp hf
  have hkeep := hall kKeep (by simp [scanStatuses])
  have hearly := hall kEarly (by simp [scanStatuses])
  have hres := hall kReschedule (by simp [scanStatuses])
  have hcan := hall kCancel (by simp [scanStatuses])
  constructor
  · have h3 : findOrderIn [kEarly, kReschedule, kCancel] s oid = none := by
      rw [findOrderIn_eq_none]
      intro k hk
      simp only [List.mem_cons, List.not_mem_nil, or_false] at hk
      rcases hk with rfl | rfl | rfl
      · exact hearly
      · exact hres
      · exact hcan
    unfold execute_check_feasibility
    rw [h3]
    simp [hkeep]
  · unfold execute_modify_sandbox_order
    rw [hf]

/-- C7 witness: order id 99999 is in no bucket of `sbxA`. -/
theorem C7_not_found_witness :
    execute_check_feasibility id99999 sbxA catA tmA 100 120 stA
      = some FeasOutcome.notFound
    ∧ execute_modify_sandbox_order id99999 sKEEP rsnRetry sbxA catA tmA 100 120 stA
        = MoveOutcome.ok false (notFoundMsg id99999) sbxA :=
  C7_not_found id99999 sKEEP rsnRetry sbxA catA tmA 100 120 stA (by decide)

/-! ### Claim C8 -/

/-- C8: when the order's current category (the upper-cased key of the bucket
it is found in) already equals the target, `move_order` succeeds with the
no-change message and returns the sandbox unchanged; iterating the call any
number of times is the identity on the sandbox. -/
theorem C8_noop_idempotent (oid t r : String) (s : Sandbox) (vo : List Order)
    (tm : List (List Int)) (cap win : Int) (st : List Int)
    (o : SandboxOrder) (key : String)
    (hf : findOrder s oid = some (o, key)) (ht : pyUpper key = t) :
    execute_modify_sandbox_order oid t r s vo tm cap win st
      = MoveOutcome.ok true (noChangeMsg oid t) s
    ∧ ∀ k : Nat,
        (fun sb => moveResultSandbox
          (execute_modify_sandbox_order oid t r sb vo tm cap win st))^[k] s = s := by
  have h1 : execute_modify_sandbox_order oid t r s vo tm cap win st
      = MoveOutcome.ok true (noChangeMsg oid t) s := by
    unfold execute_modify_sandbox_order
    rw [hf]
    simp only
    rw [if_pos (by simp [ht])]
  refine ⟨h1, fun k => Function.iterate_fixed ?_ k⟩
  simp only [h1, moveResultSandbox]

/-- C8 witness: order 103 is already EARLY; the no-op move and its third
iterate leave `sbxA` untouched. -/
theorem C8_noop_idempotent_witness :
    execute_modify_sandbox_order id103 sEARLY rsnRetry sbxA catA tmA 100 120 stA
      = MoveOutcome.ok true (noChangeMsg id103 sEARLY) sbxA
    ∧ (fun sb => moveResultSandbox
        (execute_modify_sandbox_order id103 sEARLY rsnRetry sb catA tmA 100 120 stA))^[3] sbxA
      = sbxA :=
  ⟨(C8_noop_idempotent id103 sEARLY rsnRetry sbxA catA tmA 100 120 stA ordC kEarly
      (by decide) (by decide)).1,
   (C8_noop_idempotent id103 sEARLY rsnRetry sbxA catA tmA 100 120 stA ordC kEarly
      (by decide) (by decide)).2 3⟩

/-! ### Claim C9 -/

/-- C9: for an order currently in KEEP whose id resolves in the catalog and
whose units fit the freed capacity, the composite KEEP→CANCEL→KEEP succeeds
and restores the order to KEEP with category KEEP and a fresh
`sequence_index` equal to the KEEP length at re-insertion time (the bucket's
tail position), not necessarily its original index.  The uniqueness
hypotheses mirror the sandbox invariant that an id lives in one bucket. -/
theorem C9_roundtrip (oid r1 r2 : String) (s : Sandbox) (vo : List Order)
    (tm : List (List Int)) (cap win : Int) (st : List Int)
    (o : SandboxOrder) (n : Nat)
    (hk : bucketFind? (dictGetD s kKeep) oid = some o)
    (he : bucketFind? (dictGetD s kEarly) oid = none)
    (hr : bucketFind? (dictGetD s kReschedule) oid = none)
    (hc : bucketFind? (dictGetD s kCancel) oid = none)
    (hcat : catalogNode vo oid = some n)
    (hcap : sumUnits ((dictGetD s kKeep).filter (fun x => x.order_id != oid)) + o.units
        ≤ cap) :
    ∃ m1 s1 m2 s2,
      execute_modify_sandbox_order oid sCANCEL r1 s vo tm cap win st
        = MoveOutcome.ok true m1 s1
      ∧ execute_modify_sandbox_order oid sKEEP r2 s1 vo tm cap win st
        = MoveOutcome.ok true m2 s2
      ∧ dictGetD s2 kKeep
          = (dictGetD s kKeep).filter (fun x => x.order_id != oid)
            ++ [{ o with
                  reason := r2
                  category := sKEEP
                  node := some n
                  sequence_index :=
                    some ((((dictGetD s kKeep).filter
                      (fun x => x.order_id != oid)).length : Int))
                  estimated_arrival := some 0 }] := by
  have hoid : o.order_id = oid := bucketFind?_id _ _ _ hk
  have hfo1 : findOrder s oid = some (o, kKeep) := by
    simp [findOrder, scanStatuses, findOrderIn, hk]
  have hmove1 : execute_modify_sandbox_order oid sCANCEL r1 s vo tm cap win st
      = MoveOutcome.ok true (confirmMsg oid ("removed from route (cancelled)") r1)
          (appendToBucket (removeFromBucket s kKeep oid) kCancel
            { o with
              reason := r1
              category := sCANCEL
              node := none
              sequence_index := none
              estimated_arrival := none }) := by
    unfold execute_modify_sandbox_order
    rw [hfo1]
    simp only
    rw [if_neg (by decide)]
    have hg : (sCANCEL == sKEEP) = false := by decide
    rw [hg, Bool.false_and, if_neg Bool.false_ne_true, if_neg Bool.false_ne_true]
    rfl
  have hgk1 : dictGetD (appendToBucket (removeFromBucket s kKeep oid) kCancel
        { o with
          reason := r1
          category := sCANCEL
          node := none
          sequence_index := none
          estimated_arrival := none }) kKeep
      = (dictGetD s kKeep).filter (fun x => x.order_id != oid) := by
    rw [dictGetD_appendToBucket_ne _ _ _ _ (by decide), dictGetD_removeFromBucket_self]
  have hge1 : dictGetD (appendToBucket (removeFromBucket s kKeep oid) kCancel
        { o with
          reason := r1
          category := sCANCEL
          node := none
          sequence_index := none
          estimated_arrival := none }) kEarly
      = dictGetD s kEarly := by
    rw [dictGetD_appendToBucket_ne _ _ _ _ (by decide),
      dictGetD_removeFromBucket_ne _ _ _ _ (by decide)]
  have hgr1 : dictGetD (appendToBucket (removeFromBucket s kKeep oid) kCancel
        { o with
          reason := r1
          category := sCANCEL
          node := none
          sequence_index := none
          estimated_arrival := none }) kReschedule
      = dictGetD s kReschedule := by
    rw [dictGetD_appendToBucket_ne _ _ _ _ (by decide),
      dictGetD_removeFromBucket_ne _ _ _ _ (by decide)]
  have hgc1 : dictGetD (appendToBucket (removeFromBucket s kKeep oid) kCancel
        { o with
          reason := r1
          category := sCANCEL
          node := none
          sequence_index := none
          estimated_arrival := none }) kCancel
      = dictGetD s kCancel
        ++ [{ o with
              reason := r1
              category := sCANCEL
              node := none
              sequence_index := none
              estimated_arrival := none }] := by
    rw [dictGetD_appendToBucket_self, dictGetD_removeFromBucket_ne _ _ _ _ (by decide)]
  have hfc : bucketFind? (dictGetD (appendToBucket (removeFromBucket s kKeep oid) kCancel
        { o with
          reason := r1
          category := sCANCEL
          node := none
          sequence_index := none
          estimated_arrival := none }) kCancel) oid
      = some { o with
              reason := r1
              category := sCANCEL
              node := none
              sequence_index := none
              estimated_arrival := none } := by
    rw [hgc1, bucketFind?_append, hc]
    simp [bucketFind?, List.find?, hoid]
  have hfo2 : findOrder (appendToBucket (removeFromBucket s kKeep oid) kCancel
        { o with
          reason := r1
          category := sCANCEL
          node := none
          sequence_index := none
          estimated_arrival := none }) oid
      = some ({ o with
              reason := r1
              category := sCANCEL
              node := none
              sequence_index := none
              estimated_arrival := none }, kCancel) := by
    simp [findOrder, scanStatuses, findOrderIn, hgk1, hge1, hgr1,
      bucketFind?_filter_self, he, hr, hfc]
  have hgk2 : dictGetD (removeFromBucket (appendToBucket (removeFromBucket s kKeep oid)
        kCancel
        { o with
          reason := r1
          category := sCANCEL
          node := none
          sequence_index := none
          estimated_arrival := none }) kCancel oid) kKeep
      = (dictGetD s kKeep).filter (fun x => x.order_id != oid) := by
    rw [dictGetD_removeFromBucket_ne _ _ _ _ (by decide), hgk1]
  have hmove2 : execute_modify_sandbox_order oid sKEEP r2
      (appendToBucket (removeFromBucket s kKeep oid) kCancel
        { o with
          reason := r1
          category := sCANCEL
          node := none
          sequence_index := none
          estimated_arrival := none }) vo tm cap win st
      = MoveOutcome.ok true (confirmMsg oid ("added to route") r2)
          (dictSet (removeFromBucket (appendToBucket (removeFromBucket s kKeep oid)
              kCancel
              { o with
                reason := r1
                category := sCANCEL
                node := none
                sequence_index := none
                estimated_arrival := none }) kCancel oid) kKeep
            (((dictGetD s kKeep).filter (fun x => x.order_id != oid))
              ++ [{ o with
                    reason := r2
                    category := sKEEP
                    node := some n
                    sequence_index :=
                      some ((((dictGetD s kKeep).filter
                        (fun x => x.order_id != oid)).length : Int))
                    estimated_arrival := some 0 }])) := by
    unfold execute_modify_sandbox_order
    rw [hfo2]
    simp only
    rw [if_neg (by decide)]
    have hgd : decide (sumUnits (dictGetD (appendToBucket (removeFromBucket s kKeep oid)
          kCancel
          { o with
            reason := r1
            category := sCANCEL
            node := none
            sequence_index := none
            estimated_arrival := none }) kKeep) + o.units > cap) = false := by
      rw [hgk1]
      exact decide_eq_false (not_lt.mpr hcap)
    rw [hgd, Bool.and_false, if_neg Bool.false_ne_true]
    rw [if_pos (by decide), hcat]
    rw [show pyLower (pyUpper kCancel) = kCancel from rfl]
    rw [hgk2]
    rfl
  exact ⟨_, _, _, _, hmove1, hmove2, by rw [dictGetD_dictSet_self]⟩

/-- C9 witness: order 101 leaves KEEP for CANCEL and returns at tail position
1 (KEEP length after its removal), not its original index 0. -/
theorem C9_roundtrip_witness :
    ∃ m1 s1 m2 s2,
      execute_modify_sandbox_order id101 sCANCEL rsnDrop sbxA catA tmA 100 120 stA
        = MoveOutcome.ok true m1 s1
      ∧ execute_modify_sandbox_order id101 sKEEP rsnRetry s1 catA tmA 100 120 stA
        = MoveOutcome.ok true m2 s2
      ∧ dictGetD s2 kKeep
          = (dictGetD sbxA kKeep).filter (fun x => x.order_id != id101)
            ++ [{ ordA with
                  reason := rsnRetry
                  category := sKEEP
                  node := some 1
                  sequence_index :=
                    some ((((dictGetD sbxA kKeep).filter
                      (fun x => x.order_id != id101)).length : Int))
                  estimated_arrival := some 0 }] :=
  C9_roundtrip id101 rsnDrop rsnRetry sbxA catA tmA 100 120 stA ordA 1
    (by decide) (by decide) (by decide) (by decide) (by decide) (by decide)

/-! ### Claim C10 -/

/-- C10: `move_order` returns a structured result for every target in
{KEEP, EARLY, RESCHEDULE, CANCEL}; for any other target string applied to an
order that is found (whose current category therefore differs), the
confirmation-verb lookup raises instead of returning, and at that point the
sandbox has already been mutated: the order was removed from its old bucket
and the stripped copy appended under the lower-cased unrecognized key. -/
theorem C10_totality_boundary :
    (∀ (oid t r : String) (s : Sandbox) (vo : List Order) (tm : List (List Int))
        (cap win : Int) (st : List Int),
      t ∈ [sKEEP, sEARLY, sRESCHEDULE, sCANCEL] →
      ∃ b m s2, execute_modify_sandbox_order oid t r s vo tm cap win st
        = MoveOutcome.ok b m s2)
    ∧ (∀ (oid t r : String) (s : Sandbox) (vo : List Order) (tm : List (List Int))
        (cap win : Int) (st : List Int) (o : SandboxOrder) (key : String),
      t ∉ [sKEEP, sEARLY, sRESCHEDULE, sCANCEL] →
      findOrder s oid = some (o, key) →
      execute_modify_sandbox_order oid t r s vo tm cap win st
        = MoveOutcome.raised
            (appendToBucket (removeFromBucket s key oid) (pyLower t)
              { o with
                reason := r
                category := t
                node := none
                sequence_index := none
                estimated_arrival := none })) := by
  constructor
  · intro oid t r s vo tm cap win st hmem
    cases hres : execute_modify_sandbox_order oid t r s vo tm cap win st with
    | ok b m s2 => exact ⟨b, m, s2, rfl⟩
    | raised s2 =>
        have hav := modify_raised_actionVerb oid t r s vo tm cap win st s2 hres
        simp only [List.mem_cons, List.not_mem_nil, or_false] at hmem
        rcases hmem with rfl | rfl | rfl | rfl <;> exact absurd hav (by decide)
  · intro oid t r s vo tm cap win st o key hnot hf
    have hmem : key ∈ scanStatuses := findOrderIn_key_mem scanStatuses s oid o key hf
    simp only [List.mem_cons, List.not_mem_nil, or_false, not_or] at hnot
    obtain ⟨hn1, hn2, hn3, hn4⟩ := hnot
    have hupne : pyUpper key ≠ t := by
      simp only [scanStatuses, List.mem_cons, List.not_mem_nil, or_false] at hmem
      rcases hmem with rfl | rfl | rfl | rfl
      · rw [pyUpper_kKeep]; exact fun hh => hn1 hh.symm
      · rw [pyUpper_kEarly]; exact fun hh => hn2 hh.symm
      · rw [pyUpper_kReschedule]; exact fun hh => hn3 hh.symm
      · rw [pyUpper_kCancel]; exact fun hh => hn4 hh.symm
    have hup : (pyUpper key == t) = false := beq_eq_false_iff_ne.mpr hupne
    have htk : (t == sKEEP) = false := beq_eq_false_iff_ne.mpr hn1
    have hav : actionVerb t = none := by
      unfold actionVerb
      rw [htk, if_neg Bool.false_ne_true,
        beq_eq_false_iff_ne.mpr hn2, if_neg Bool.false_ne_true,
        beq_eq_false_iff_ne.mpr hn3, if_neg Bool.false_ne_true,
        beq_eq_false_iff_ne.mpr hn4, if_neg Bool.false_ne_true]
    unfold execute_modify_sandbox_order
    rw [hf]
    simp only
    rw [hup, if_neg Bool.false_ne_true]
    rw [htk, Bool.false_and, if_neg Bool.false_ne_true, if_neg Bool.false_ne_true]
    rw [pyLower_pyUpper_scan key hmem]
    unfold finishMove
    rw [hav]

/-- C10 witness: part (1) at the recognized target CANCEL, part (2) at the
unrecognized target PAUSE applied to the kept order 101: the call raises with
order 101 already removed from KEEP and parked under the new key. -/
theorem C10_totality_boundary_witness :
    (∃ b m s2, execute_modify_sandbox_order id101 sCANCEL rsnDrop sbxA catA tmA 100 120 stA
      = MoveOutcome.ok b m s2)
    ∧ execute_modify_sandbox_order id101 tPAUSE rsnDrop sbxA catA tmA 100 120 stA
      = MoveOutcome.raised
          (appendToBucket (removeFromBucket sbxA kKeep id101) (pyLower tPAUSE)
            { ordA with
              reason := rsnDrop
              category := tPAUSE
              node := none
              sequence_index := none
              estimated_arrival := none }) :=
  ⟨C10_totality_boundary.1 id101 sCANCEL rsnDrop sbxA catA tmA 100 120 stA (by decide),
   C10_totality_boundary.2 id101 tPAUSE rsnDrop sbxA catA tmA 100 120 stA ordA kKeep
     (by decide) (by decide)⟩

end RouteBuncher
